import Mathlib

/-!
Shallow embedding of `src/semeru-kapasitas.py` (Semeru/Bromo kapasitas
poller). The HTML extraction performed by BeautifulSoup is abstracted to a
structured input: a table row (`Tr`) is the list of its `td` cells, and a
cell records the three pieces of text the parser reads from it (its full
text, the text of its first red/green/blue status element, and the text of
its first `.hide` element). Everything downstream of that extraction —
the Indonesian date normalizer, the row parser's classification logic, the
target matcher, the CLI year-month derivation and the polling-loop state
transitions — is translated function by function from the source. String
functions model Python string semantics on the ASCII fragment (Python's
`str.isdigit`, `\d`, `\s` and `str.lower` extend to non-ASCII unicode,
which the endpoint's markup does not use).
-/

/-- Python substring prefix test: `startsWithL needle hay` is true when
`needle` is an initial segment of `hay`. -/
def startsWithL : List Char → List Char → Bool
  | [], _ => true
  | _ :: _, [] => false
  | a :: as, b :: bs => a == b && startsWithL as bs

/-- Python `needle in hay` on character lists: some contiguous occurrence.
The empty needle occurs in every string, as in Python. -/
def containsL (needle : List Char) : List Char → Bool
  | [] => needle.isEmpty
  | c :: rest => startsWithL needle (c :: rest) || containsL needle rest

/-- Python `needle in hay` on strings (used for the status-text tests). -/
def pyIn (needle hay : String) : Bool :=
  containsL needle.data hay.data

/-- Python `s.endswith(suffix)`. -/
def pyEndsWith (s suffix : String) : Bool :=
  startsWithL suffix.data.reverse s.data.reverse

/-- Python `s.strip()`: drop leading and trailing whitespace. -/
def pyStrip (s : String) : String :=
  String.mk (((s.data.dropWhile Char.isWhitespace).reverse.dropWhile Char.isWhitespace).reverse)

/-- Python `s.lower()` (ASCII). -/
def pyLower (s : String) : String :=
  String.mk (s.data.map Char.toLower)

/-- Python `s.isdigit()` (ASCII): nonempty and all decimal digits. -/
def pyIsDigit (s : String) : Bool :=
  !s.isEmpty && s.data.all Char.isDigit

/-- Python `int(s)` for a string of decimal digits. -/
def digitsToNat (cs : List Char) : Nat :=
  cs.foldl (fun a c => a * 10 + (c.toNat - 48)) 0

/-- Python `f"{n:02d}"` for a natural number: zero-pad to width 2. -/
def pad2 (n : Nat) : String :=
  if n < 10 then "0" ++ Nat.repr n else Nat.repr n

/-- `MONTHS_ID` (source lines 27-30): Indonesian month names. -/
def MONTHS_ID : List (String × Nat) :=
  [("januari", 1), ("februari", 2), ("maret", 3), ("april", 4), ("mei", 5),
   ("juni", 6), ("juli", 7), ("agustus", 8), ("september", 9),
   ("oktober", 10), ("november", 11), ("desember", 12)]

/-- Python `MONTHS_ID.get(name)`. -/
def monthsLookup (name : String) : Option Nat :=
  (MONTHS_ID.find? (fun p => p.1 == name)).map (fun p => p.2)

/-- Helper for `" ".join(text.split())`: `started` records whether a word was
already emitted, `pend` whether whitespace is pending before the next word. -/
def normAux (started pend : Bool) : List Char → List Char
  | [] => []
  | c :: cs =>
    if c.isWhitespace then normAux started true cs
    else if started && pend then ' ' :: c :: normAux true false cs
    else c :: normAux true false cs

/-- Python `" ".join(text.split())` (source line 133): collapse every
whitespace run to a single space and drop leading/trailing whitespace. -/
def normSpaceL (cs : List Char) : List Char :=
  normAux false false cs

/-- The tail of the regex `(\d{1,2})\s+([A-Za-z]+)\s+(\d{4})` after the day
digits `dd` were consumed: `\s+`, then `[A-Za-z]+`, then `\s+`, then four
digits. Because the character classes are pairwise disjoint, Python's greedy
backtracking search is equivalent to this maximal-munch scan. -/
def matchTail (dd rest : List Char) : Option (List Char × List Char × List Char) :=
  if (rest.takeWhile Char.isWhitespace).isEmpty then none else
  let r1 := rest.dropWhile Char.isWhitespace
  let mm := r1.takeWhile Char.isAlpha
  if mm.isEmpty then none else
  let r2 := r1.dropWhile Char.isAlpha
  if (r2.takeWhile Char.isWhitespace).isEmpty then none else
  let r3 := r2.dropWhile Char.isWhitespace
  match r3 with
  | y1 :: y2 :: y3 :: y4 :: _ =>
    if y1.isDigit && y2.isDigit && y3.isDigit && y4.isDigit then
      some (dd, mm, [y1, y2, y3, y4])
    else none
  | _ => none

/-- One attempt of the regex at the head of `cs`: `\d{1,2}` prefers two
digits; when two digits are taken the one-digit fallback can never succeed
(the character after the first digit is a digit, which `\s` rejects), so
no backtracking over the day group is needed. -/
def matchAt : List Char → Option (List Char × List Char × List Char)
  | [] => none
  | c1 :: rest =>
    if c1.isDigit then
      match rest with
      | c2 :: rest2 => if c2.isDigit then matchTail [c1, c2] rest2 else matchTail [c1] rest
      | [] => none
    else none

/-- Python `re.search`: try the pattern at every position, leftmost match
wins. -/
def searchFrom : List Char → Option (List Char × List Char × List Char)
  | [] => none
  | c :: cs =>
    match matchAt (c :: cs) with
    | some r => some r
    | none => searchFrom cs

/-- `to_iso_from_tanggal_id` (source lines 126-142): normalize a localized
Indonesian date such as "Rabu, 1 Oktober 2025" to ISO "2025-10-01", or
`none` when the pattern or the month name is unrecognized. -/
def to_iso_from_tanggal_id (text : String) : Option String :=
  if text = "" then none else
  match searchFrom (normSpaceL text.data) with
  | none => none
  | some (dd, mmName, yy) =>
    match monthsLookup (String.mk (mmName.map Char.toLower)) with
    | none => none
    | some mm => some (String.mk yy ++ "-" ++ pad2 mm ++ "-" ++ pad2 (digitsToNat dd))

/-- One `td` cell as the parser reads it: its whitespace-collapsed text,
the text of its first `.text-red`/`.text-green`/`.text-blue` descendant
(when one exists), and the stripped text of its first `.hide` descendant
(when one exists). -/
structure Cell where
  text : String
  statusEl : Option String
  hideEl : Option String
deriving DecidableEq, Repr

/-- One `tbody tr` of the response table: its list of `td` cells. -/
structure Tr where
  tds : List Cell
deriving DecidableEq, Repr

/-- The dict appended per row by `parse_kapasitas_rows` (source lines
194-201). -/
structure KapasitasRow where
  tanggalText : String
  tanggalISO : Option String
  statusText : String
  sisa : Option Nat
  isFull : Bool
  available : Bool
deriving DecidableEq, Repr

/-- Source lines 158-160: status text prefers the red/green/blue status
element, else the whole cell text. -/
def status_text (td1 : Cell) : String :=
  match td1.statusEl with
  | some s => s
  | none => td1.text

/-- Source lines 166-170: the remaining quota, when the `.hide` text is a
nonempty digit string (`hide_val_raw and hide_val_raw.isdigit()`). -/
def sisa_val (td1 : Cell) : Option Nat :=
  match td1.hideEl with
  | some v => if pyIsDigit v then some (digitsToNat v.data) else none
  | none => none

/-- Source line 173: `st_low = status_text.lower()`. -/
def st_low (td1 : Cell) : String :=
  pyLower (status_text td1)

/-- Source line 176: `is_full_text = ("penuh" in st_low) or ("kuota penuh" in st_low)`. -/
def is_full_text (td1 : Cell) : Bool :=
  pyIn "penuh" (st_low td1) || pyIn "kuota penuh" (st_low td1)

/-- Source line 180: the `.hide` element exists but its text is empty or not
all digits. -/
def hide_is_hidden (td1 : Cell) : Bool :=
  match td1.hideEl with
  | some v => (v == "") || !pyIsDigit v
  | none => false

/-- Source line 181: `full_by_hidden = ("kuota penuh" in st_low) and hide_is_hidden`. -/
def full_by_hidden (td1 : Cell) : Bool :=
  pyIn "kuota penuh" (st_low td1) && hide_is_hidden td1

/-- Source line 184: `is_full_zero = (isinstance(sisa, int) and sisa == 0)`. -/
def is_full_zero (td1 : Cell) : Bool :=
  sisa_val td1 == some 0

/-- Source line 186: `is_full = bool(is_full_text or full_by_hidden or is_full_zero)`. -/
def is_full (td1 : Cell) : Bool :=
  is_full_text td1 || full_by_hidden td1 || is_full_zero td1

/-- Source lines 189-192: available only when not full and either a
tersedia/available/tersisa signal or a positive remaining count. -/
def available_of (td1 : Cell) : Bool :=
  !is_full td1 &&
    (([ "tersedia", "available", "tersisa" ].any (fun k => pyIn k (st_low td1))) ||
     (match sisa_val td1 with
      | some n => decide (0 < n)
      | none => false))

/-- The record built from the first two cells of a row (source lines
156-201). -/
def rowOf (td0 td1 : Cell) : KapasitasRow :=
  { tanggalText := td0.text
    tanggalISO := to_iso_from_tanggal_id td0.text
    statusText := status_text td1
    sisa := sisa_val td1
    isFull := is_full td1
    available := available_of td1 }

/-- One iteration of the `for tr in soup.select("tbody tr")` loop: a row
with fewer than 2 cells is skipped (`continue`, source line 153), any other
row yields a record. -/
def parseRow (tr : Tr) : Option KapasitasRow :=
  match tr.tds with
  | td0 :: td1 :: _ => some (rowOf td0 td1)
  | _ => none

/-- `parse_kapasitas_rows` (source lines 144-202) on the extracted rows. -/
def parse_kapasitas_rows (html : List Tr) : List KapasitasRow :=
  html.filterMap parseRow

/-- `Union[int, str]` target of `_match_target`. The CLI builds the `int`
variant only from an all-digit string (source lines 484-486), so the model
uses `Nat`. -/
inductive Target where
  | int (n : Nat)
  | str (s : String)
deriving DecidableEq, Repr

/-- `_match_target` (source lines 204-220). -/
def _match_target (row : KapasitasRow) (target : Target) : Bool :=
  match target with
  | .int n =>
    match row.tanggalISO with
    | some iso => pyEndsWith iso ("-" ++ pad2 n)
    | none => false
  | .str sRaw =>
    let t := pyStrip sRaw
    if t.data.length == 10 && (t.data.get? 4 == some '-') && (t.data.get? 7 == some '-') then
      row.tanggalISO == some t
    else
      match to_iso_from_tanggal_id t with
      | some iso => row.tanggalISO == some iso
      | none => containsL (pyLower t).data (pyLower row.tanggalText).data

/-- `next((r for r in rows if _match_target(r, target)), None)` (source
line 314). -/
def findTarget (rows : List KapasitasRow) (target : Target) : Option KapasitasRow :=
  rows.find? (fun r => _match_target r target)

/-- The outcome of one `_once()` cycle: a parsed lookup result, or an
exception (transport or parsing failure) caught by the loop. -/
inductive CycleResult where
  | ok (row : Option KapasitasRow)
  | exc
deriving DecidableEq, Repr

/-- The mutable state threaded through the indefinite loop of
`get_kapasitas_by_date` (source lines 327-370): the consecutive-error
counter `err_count`, the successful-request counter `requests_made`, and
the transport handle abstracted to a generation number `session_gen` that
is incremented each time the session is closed and rebuilt. -/
structure LoopState where
  err_count : Nat
  requests_made : Nat
  session_gen : Nat
deriving DecidableEq, Repr

/-- What one iteration of the indefinite loop does next: continue after
sleeping `sleepSec` seconds, or return the found row. -/
inductive StepResult where
  | next (st : LoopState) (sleepSec : Nat)
  | found (st : LoopState) (row : KapasitasRow)
deriving DecidableEq, Repr

/-- The state a step leaves behind. -/
def stateOfStep : StepResult → LoopState
  | .next st _ => st
  | .found st _ => st

/-- One iteration of the indefinite loop of `get_kapasitas_by_date`
(source lines 331-370). On success: increment `requests_made`, reset
`err_count`, rebuild the session every 100 requests, return the row when
`stop_when_available` holds and it is available, else sleep
`interval_sec`. On a cycle failure: increment `err_count`, sleep
`interval_sec + min(60, 2 ** err_count)`, and rebuild the session when the
error streak has reached 3. -/
def get_kapasitas_by_date_step (interval_sec : Nat) (stop_when_available : Bool)
    (st : LoopState) (res : CycleResult) : StepResult :=
  match res with
  | .ok row =>
    let requests := st.requests_made + 1
    let gen := if requests % 100 == 0 then st.session_gen + 1 else st.session_gen
    let st1 : LoopState := ⟨0, requests, gen⟩
    match row with
    | some r =>
      if stop_when_available && r.available then .found st1 r else .next st1 interval_sec
    | none => .next st1 interval_sec
  | .exc =>
    let ec := st.err_count + 1
    let extra := min 60 (2 ^ ec)
    let gen := if 3 ≤ ec then st.session_gen + 1 else st.session_gen
    .next ⟨ec, st.requests_made, gen⟩ (interval_sec + extra)

/-- The indefinite loop run over a list of cycle outcomes: iterate
`get_kapasitas_by_date_step`, stopping early when a step returns a row. -/
def get_kapasitas_by_date_run (interval_sec : Nat) (stop_when_available : Bool) :
    LoopState → List CycleResult → LoopState × Option KapasitasRow
  | st, [] => (st, none)
  | st, r :: rs =>
    match get_kapasitas_by_date_step interval_sec stop_when_available st r with
    | .found st1 row => (st1, some row)
    | .next st1 _ => get_kapasitas_by_date_run interval_sec stop_when_available st1 rs

/-- What one attempt of a bounded waiting loop does next: return the row,
or sleep `sleepSec` seconds and try again. -/
inductive BoundedStep where
  | done (row : KapasitasRow)
  | again (sleepSec : Nat)
deriving DecidableEq, Repr

/-- One attempt of `wait_until_tanggal_ada` (source lines 387-402): return
the row as soon as the target date appears; on no row or on an exception,
sleep exactly `interval_sec` and retry. The loop keeps no error counter
and never rebuilds the session. -/
def wait_until_tanggal_ada_step (interval_sec : Nat) (res : CycleResult) : BoundedStep :=
  match res with
  | .ok (some r) => .done r
  | .ok none => .again interval_sec
  | .exc => .again interval_sec

/-- One attempt of `wait_until_tanggal_tersedia` (source lines 419-434):
return the row as soon as it exists and is available; otherwise sleep
exactly `interval_sec` and retry. The loop keeps no error counter and
never rebuilds the session. -/
def wait_until_tanggal_tersedia_step (interval_sec : Nat) (res : CycleResult) : BoundedStep :=
  match res with
  | .ok (some r) => if r.available then .done r else .again interval_sec
  | .ok none => .again interval_sec
  | .exc => .again interval_sec

/-- `_derive_year_month_from_target` (source lines 442-457). -/
def _derive_year_month_from_target : Target → Option String
  | .int _ => none
  | .str t0 =>
    let t := pyStrip t0
    if t.data.length == 10 && (t.data.get? 4 == some '-') && (t.data.get? 7 == some '-') then
      some (String.mk (t.data.take 7))
    else
      match to_iso_from_tanggal_id t with
      | some iso => some (String.mk (iso.data.take 7))
      | none => none

/-- Source lines 483-487: the target CLI string becomes an `int` when it is
all digits, else stays a string. -/
def normalizeTargetArg (s : String) : Target :=
  if pyIsDigit s then Target.int (digitsToNat s.data) else Target.str s

/-- What the `__main__` block does after parsing arguments (source lines
489-506): `configError` models `raise SystemExit("ERROR: ...")`, which
terminates the process with exit status 1 before `build_session` and
before any request is issued; `run` models proceeding to build the session
and call `get_kapasitas_by_date` with the resolved year-month. -/
inductive MainOutcome where
  | configError
  | run (year_month : String) (target : Target)
deriving DecidableEq, Repr

/-- Source lines 489-491: `ym = args.year_month or _derive_year_month_from_target(target_val)`
(Python `or` treats the empty string as falsy), then `SystemExit` when `ym`
is `None`. -/
def mainDecision (yearMonthArg : Option String) (targetArg : String) : MainOutcome :=
  let tv := normalizeTargetArg targetArg
  let ym :=
    match yearMonthArg with
    | some s => if s == "" then _derive_year_month_from_target tv else some s
    | none => _derive_year_month_from_target tv
  match ym with
  | none => MainOutcome.configError
  | some y => MainOutcome.run y tv

/-- The process exit status an outcome produces: `SystemExit` with a string
message exits with status 1; `run` does not exit here. -/
def exitStatus : MainOutcome → Option Nat
  | .configError => some 1
  | .run _ _ => none

/-- Whether the outcome performs any network activity: only `run` builds a
session and issues requests. -/
def performsNetwork : MainOutcome → Bool
  | .configError => false
  | .run _ _ => true

/-- Claim-side transcription of the C3 full rule, for refinement
comparison with `is_full`: `st` contains "penuh", or `st` contains
"kuota penuh" and the hidden-quota element exists but has no parseable
integer, or the remaining count is 0. -/
def spec_is_full (td1 : Cell) : Bool :=
  pyIn "penuh" (st_low td1) ||
  (pyIn "kuota penuh" (st_low td1) &&
    (match td1.hideEl with
     | some v => !pyIsDigit v
     | none => false)) ||
  (sisa_val td1 == some 0)

/-- Claim-side transcription of the C3 availability rule, for refinement
comparison with `available_of`: not full, and `st` contains one of
"tersedia"/"available"/"tersisa" or the remaining count is positive. -/
def spec_available (td1 : Cell) : Bool :=
  !spec_is_full td1 &&
    (pyIn "tersedia" (st_low td1) || pyIn "available" (st_low td1) ||
     pyIn "tersisa" (st_low td1) ||
     (match sisa_val td1 with
      | some n => decide (0 < n)
      | none => false))

/-- Scenario row: date "Rabu, 1 Oktober 2025", status element
"Kuota Penuh", hidden value empty. -/
def scnPenuhTr : Tr :=
  ⟨[⟨ "Rabu, 1 Oktober 2025", none, none⟩, ⟨ "Kuota Penuh", some "Kuota Penuh", some ""⟩]⟩

/-- The record the parser produces for `scnPenuhTr`. -/
def scnPenuhRec : KapasitasRow :=
  ⟨ "Rabu, 1 Oktober 2025", some "2025-10-01", "Kuota Penuh", none, true, false⟩

/-- Scenario row: status element "Tersedia", hidden value "5". -/
def scnTersediaTr : Tr :=
  ⟨[⟨ "Sabtu, 18 Oktober 2025", none, none⟩, ⟨ "Tersedia 5", some "Tersedia", some "5"⟩]⟩

/-- The record the parser produces for `scnTersediaTr`. -/
def scnTersediaRec : KapasitasRow :=
  ⟨ "Sabtu, 18 Oktober 2025", some "2025-10-18", "Tersedia", some 5, false, true⟩

/-- A row whose date cell cannot be parsed as a date: the parser still
produces a record, with `tanggalISO` absent. -/
def scnNoDateTr : Tr :=
  ⟨[⟨ "???", none, none⟩, ⟨ "status", none, none⟩]⟩

/-- The best-effort record the parser produces for `scnNoDateTr`. -/
def scnNoDateRec : KapasitasRow :=
  ⟨ "???", none, "status", none, false, false⟩

/-- A row with a visible zero in the hidden field. -/
def scnZeroTr : Tr :=
  ⟨[⟨ "Senin, 6 Oktober 2025", none, none⟩, ⟨ "x", some "x", some "0"⟩]⟩

/-- The record the parser produces for `scnZeroTr`: zero remaining forces
`isFull`. -/
def scnZeroRec : KapasitasRow :=
  ⟨ "Senin, 6 Oktober 2025", some "2025-10-06", "x", some 0, true, false⟩

/-- A row with a single cell, skipped by the parser. -/
def scnShortTr : Tr :=
  ⟨[⟨ "x", none, none⟩]⟩

/-- `startsWithL` characterized by list append. -/
lemma startsWithL_iff (n h : List Char) : startsWithL n h = true ↔ ∃ t, h = n ++ t := by
  induction n generalizing h with
  | nil => simp [startsWithL]
  | cons a as ih =>
    cases h with
    | nil => simp [startsWithL]
    | cons b bs =>
      simp only [startsWithL, Bool.and_eq_true, beq_iff_eq, ih, List.cons_append,
        List.cons.injEq]
      constructor
      · rintro ⟨rfl, t, rfl⟩
        exact ⟨t, rfl, rfl⟩
      · rintro ⟨t, rfl, rfl⟩
        exact ⟨rfl, t, rfl⟩

/-- `containsL` characterized by list append. -/
lemma containsL_iff (n h : List Char) : containsL n h = true ↔ ∃ p t, h = p ++ n ++ t := by
  induction h with
  | nil =>
    simp only [containsL, List.isEmpty_iff]
    constructor
    · rintro rfl
      exact ⟨[], [], rfl⟩
    · rintro ⟨p, t, hpt⟩
      rcases List.append_eq_nil.mp (List.append_eq_nil.mp hpt.symm).1 with ⟨-, h2⟩
      exact h2
  | cons c cs ih =>
    simp only [containsL, Bool.or_eq_true, startsWithL_iff, ih]
    constructor
    · rintro (⟨t, ht⟩ | ⟨p, t, ht⟩)
      · exact ⟨[], t, by simpa using ht⟩
      · exact ⟨c :: p, t, by simp [ht]⟩
    · rintro ⟨p, t, hpt⟩
      cases p with
      | nil => exact Or.inl ⟨t, by simpa using hpt⟩
      | cons q qs =>
        right
        simp only [List.cons_append, List.cons.injEq] at hpt
        exact ⟨qs, t, hpt.2⟩

/-- The empty needle occurs everywhere. -/
lemma containsL_nil (h : List Char) : containsL [] h = true := by
  cases h <;> simp [containsL, startsWithL]

/-- A status text that contains "kuota penuh" contains "penuh". -/
lemma pyIn_kuota_penuh_imp (s : String) (h : pyIn "kuota penuh" s = true) :
    pyIn "penuh" s = true := by
  unfold pyIn at h ⊢
  obtain ⟨p, t, hpt⟩ := (containsL_iff _ _).mp h
  refine (containsL_iff _ _).mpr ⟨p ++ String.data "kuota ", t, ?_⟩
  have hsplit : String.data "kuota penuh" = String.data "kuota " ++ String.data "penuh" := by
    decide
  rw [hpt, hsplit]
  simp [List.append_assoc]

/-- Projections of `rowOf`. -/
lemma rowOf_isFull (td0 td1 : Cell) : (rowOf td0 td1).isFull = is_full td1 := rfl

lemma rowOf_available (td0 td1 : Cell) : (rowOf td0 td1).available = available_of td1 := rfl

lemma rowOf_sisa (td0 td1 : Cell) : (rowOf td0 td1).sisa = sisa_val td1 := rfl

/-- `hide_is_hidden` coincides with the claim-side "exists but has no
parseable integer" (the empty string is not a digit string). -/
lemma hide_is_hidden_eq (td1 : Cell) :
    hide_is_hidden td1 = (match td1.hideEl with
      | some v => !pyIsDigit v
      | none => false) := by
  unfold hide_is_hidden
  cases hv : td1.hideEl with
  | none => rfl
  | some v =>
    by_cases h0 : v = ""
    · subst h0
      decide
    · simp [h0]

/-- The source's `is_full` equals the claim's three-way formula: the
redundant "kuota penuh" text disjunct is absorbed by the "penuh" one. -/
lemma is_full_eq_spec (td1 : Cell) : is_full td1 = spec_is_full td1 := by
  unfold is_full is_full_text full_by_hidden is_full_zero spec_is_full
  rw [hide_is_hidden_eq]
  by_cases hkp : pyIn "kuota penuh" (st_low td1) = true
  · have hp := pyIn_kuota_penuh_imp _ hkp
    simp [hkp, hp]
  · rw [Bool.not_eq_true] at hkp
    simp [hkp]

/-- The source's `available` equals the claim's formula. -/
lemma available_eq_spec (td1 : Cell) : available_of td1 = spec_available td1 := by
  unfold available_of spec_available
  rw [is_full_eq_spec]
  cases h : sisa_val td1 <;>
    simp [List.any, Bool.or_assoc]

/-- A row with fewer than two cells yields no record. -/
lemma parseRow_short (tr : Tr) (h : tr.tds.length < 2) : parseRow tr = none := by
  rcases tr with ⟨_ | ⟨a, _ | ⟨b, rest⟩⟩⟩
  · rfl
  · rfl
  · exfalso
    simp only [List.length_cons] at h
    omega

/-- The parser emits exactly one record per row with at least two cells. -/
lemma parse_len (html : List Tr) :
    (parse_kapasitas_rows html).length =
      (html.filter (fun tr => decide (2 ≤ tr.tds.length))).length := by
  induction html with
  | nil => rfl
  | cons tr rest ih =>
    rcases tr with ⟨_ | ⟨a, _ | ⟨b, r⟩⟩⟩ <;>
      simpa [parse_kapasitas_rows, parseRow, List.filterMap_cons, List.filter_cons] using ih

/-- C1. For every extracted input, `parse_kapasitas_rows` is total (it is a
Lean function, so it never raises) and returns at most one record per body
row with at least 2 cells; a row with fewer than 2 cells is skipped
entirely; every row with at least 2 cells yields a record, and a row whose
date text is unparseable still yields a best-effort record with
`tanggalISO` absent. -/
theorem C1_parse_safety :
    (∀ html : List Tr,
      (parse_kapasitas_rows html).length ≤
        (html.filter (fun tr => decide (2 ≤ tr.tds.length))).length)
    ∧ (∀ (html : List Tr) (tr : Tr), tr.tds.length < 2 →
        parse_kapasitas_rows (tr :: html) = parse_kapasitas_rows html)
    ∧ (∀ tr : Tr, 2 ≤ tr.tds.length → (parseRow tr).isSome = true)
    ∧ parse_kapasitas_rows [scnNoDateTr] = [scnNoDateRec]
    ∧ scnNoDateRec.tanggalISO = none := by
  refine ⟨fun html => Nat.le_of_eq (parse_len html), ?_, ?_, by decide, by decide⟩
  · intro html tr h
    simp [parse_kapasitas_rows, List.filterMap_cons, parseRow_short tr h]
  · intro tr h
    rcases tr with ⟨_ | ⟨a, _ | ⟨b, r⟩⟩⟩
    · simp [List.length] at h
    · simp [List.length] at h
    · simp [parseRow]

/-- Witness for C1 at a concrete input: a one-cell row is skipped. -/
theorem C1_parse_safety_witness :
    scnShortTr.tds.length < 2 ∧
      parse_kapasitas_rows [scnShortTr] = parse_kapasitas_rows [] :=
  ⟨by decide, C1_parse_safety.2.1 [] scnShortTr (by decide)⟩

/-- C2. No record of any parse is both full and available: `available` is
computed as `not is_full and ...` (source line 189). -/
theorem C2_mutual_exclusion : ∀ (html : List Tr) (r : KapasitasRow),
    r ∈ parse_kapasitas_rows html → ¬(r.isFull = true ∧ r.available = true) := by
  intro html r hr hc
  obtain ⟨hf, ha⟩ := hc
  rw [parse_kapasitas_rows, List.mem_filterMap] at hr
  obtain ⟨tr, -, htr⟩ := hr
  rcases tr with ⟨_ | ⟨a, _ | ⟨b, rest⟩⟩⟩
  · simp [parseRow] at htr
  · simp [parseRow] at htr
  · simp only [parseRow, Option.some.injEq] at htr
    subst htr
    have hf' : is_full b = true := hf
    have ha' : available_of b = true := ha
    unfold available_of at ha'
    rw [hf'] at ha'
    simp at ha'

/-- Witness for C2 at a concrete input. -/
theorem C2_mutual_exclusion_witness :
    scnTersediaRec ∈ parse_kapasitas_rows [scnTersediaTr] ∧
      ¬(scnTersediaRec.isFull = true ∧ scnTersediaRec.available = true) :=
  ⟨by decide, C2_mutual_exclusion [scnTersediaTr] scnTersediaRec (by decide)⟩

/-- C4. A present remaining count of 0 forces `isFull` (source lines
183-186). -/
theorem C4_zero_remaining_full : ∀ (html : List Tr) (r : KapasitasRow),
    r ∈ parse_kapasitas_rows html → r.sisa = some 0 → r.isFull = true := by
  intro html r hr h0
  rw [parse_kapasitas_rows, List.mem_filterMap] at hr
  obtain ⟨tr, -, htr⟩ := hr
  rcases tr with ⟨_ | ⟨a, _ | ⟨b, rest⟩⟩⟩
  · simp [parseRow] at htr
  · simp [parseRow] at htr
  · simp only [parseRow, Option.some.injEq] at htr
    subst htr
    have h0' : sisa_val b = some 0 := h0
    rw [rowOf_isFull]
    unfold is_full is_full_zero
    rw [h0']
    simp

/-- Witness for C4 at a concrete input. -/
theorem C4_zero_remaining_full_witness :
    scnZeroRec ∈ parse_kapasitas_rows [scnZeroTr] ∧
      scnZeroRec.sisa = some 0 ∧ scnZeroRec.isFull = true :=
  ⟨by decide, by decide,
    C4_zero_remaining_full [scnZeroTr] scnZeroRec (by decide) (by decide)⟩

/-- C3. For every parsed record (each is `rowOf` of its row's first two
cells), `isFull` and `available` follow exactly the claim's formulas over
the lower-cased status text, the hidden-quota element and the remaining
count; and the two concrete scenarios come out as the claim states. -/
theorem C3_classification :
    (∀ (html : List Tr) (r : KapasitasRow), r ∈ parse_kapasitas_rows html →
      ∃ td0 td1, r = rowOf td0 td1)
    ∧ (∀ td0 td1 : Cell,
        (rowOf td0 td1).isFull = spec_is_full td1 ∧
        (rowOf td0 td1).available = spec_available td1)
    ∧ parse_kapasitas_rows [scnPenuhTr] = [scnPenuhRec]
    ∧ scnPenuhRec.isFull = true ∧ scnPenuhRec.available = false ∧ scnPenuhRec.sisa = none
    ∧ parse_kapasitas_rows [scnTersediaTr] = [scnTersediaRec]
    ∧ scnTersediaRec.sisa = some 5 ∧ scnTersediaRec.isFull = false
    ∧ scnTersediaRec.available = true := by
  refine ⟨?_, fun td0 td1 => ⟨is_full_eq_spec td1, available_eq_spec td1⟩,
    by decide, by decide, by decide, by decide, by decide, by decide, by decide, by decide⟩
  intro html r hr
  rw [parse_kapasitas_rows, List.mem_filterMap] at hr
  obtain ⟨tr, -, htr⟩ := hr
  rcases tr with ⟨_ | ⟨a, _ | ⟨b, rest⟩⟩⟩
  · simp [parseRow] at htr
  · simp [parseRow] at htr
  · simp only [parseRow, Option.some.injEq] at htr
    exact ⟨a, b, htr.symm⟩

/-- An ASCII letter is not whitespace. -/
lemma alpha_not_ws (c : Char) (h : c.isAlpha = true) : c.isWhitespace = false := by
  by_contra hw
  rw [Bool.not_eq_false] at hw
  simp only [Char.isWhitespace, Bool.or_eq_true, decide_eq_true_eq] at hw
  rcases hw with ((rfl | rfl) | rfl) | rfl <;> exact absurd h (by decide)

/-- A decimal digit is not whitespace. -/
lemma digit_not_ws (c : Char) (h : c.isDigit = true) : c.isWhitespace = false := by
  by_contra hw
  rw [Bool.not_eq_false] at hw
  simp only [Char.isWhitespace, Bool.or_eq_true, decide_eq_true_eq] at hw
  rcases hw with ((rfl | rfl) | rfl) | rfl <;> exact absurd h (by decide)

/-- `takeWhile`/`dropWhile` over an append whose left part all satisfies
`p` and whose right part starts with a failure. -/
lemma takeWhile_all_app {p : Char → Bool} (l r : List Char)
    (hl : ∀ c ∈ l, p c = true)
    (hr : ∀ x xs, r = x :: xs → p x = false) :
    (l ++ r).takeWhile p = l ∧ (l ++ r).dropWhile p = r := by
  induction l with
  | nil =>
    cases r with
    | nil => simp
    | cons x xs =>
      have hx := hr x xs rfl
      simp [List.takeWhile, List.dropWhile, hx]
  | cons a as ih =>
    have ha : p a = true := hl a (by simp)
    have ih1 := ih (fun c hc => hl c (by simp [hc]))
    simp [List.takeWhile, List.dropWhile, ha, ih1.1, ih1.2]

/-- The search skips every position whose head is not a digit. -/
lemma searchFrom_append_nodigit (pre rest : List Char)
    (h : ∀ c ∈ pre, c.isDigit = false) :
    searchFrom (pre ++ rest) = searchFrom rest := by
  induction pre with
  | nil => rfl
  | cons c cs ih =>
    have hc : c.isDigit = false := h c (by simp)
    have ih1 := ih (fun d hd => h d (by simp [hd]))
    have hnone : ∀ l : List Char, matchAt (c :: l) = none := fun l => by
      simp [matchAt, hc]
    simp only [List.cons_append, searchFrom, hnone]
    exact ih1

/-- `matchTail` succeeds on a space, an alpha run, a space and four
digits, whatever follows. -/
lemma matchTail_full (dd m : List Char) (y1 y2 y3 y4 : Char) (suf : List Char)
    (hm0 : m ≠ []) (hma : ∀ c ∈ m, c.isAlpha = true)
    (h1 : y1.isDigit = true) (h2 : y2.isDigit = true)
    (h3 : y3.isDigit = true) (h4 : y4.isDigit = true) :
    matchTail dd (' ' :: (m ++ ' ' :: (y1 :: y2 :: y3 :: y4 :: suf))) =
      some (dd, m, [y1, y2, y3, y4]) := by
  obtain ⟨mh, mt, rfl⟩ : ∃ mh mt, m = mh :: mt := by
    cases m with
    | nil => exact absurd rfl hm0
    | cons a b => exact ⟨a, b, rfl⟩
  have hmh : mh.isAlpha = true := hma mh (by simp)
  have t1 := takeWhile_all_app (p := Char.isWhitespace) [' ']
    ((mh :: mt) ++ ' ' :: (y1 :: y2 :: y3 :: y4 :: suf))
    (by intro c hc; simp at hc; subst hc; decide)
    (by intro x xs hx; simp only [List.cons_append, List.cons.injEq] at hx;
        rw [← hx.1]; exact alpha_not_ws mh hmh)
  have t2 := takeWhile_all_app (p := Char.isAlpha) (mh :: mt)
    (' ' :: (y1 :: y2 :: y3 :: y4 :: suf)) hma
    (by intro x xs hx; rw [List.cons.injEq] at hx; rw [← hx.1]; decide)
  have t3 := takeWhile_all_app (p := Char.isWhitespace) [' ']
    (y1 :: y2 :: y3 :: y4 :: suf)
    (by intro c hc; simp at hc; subst hc; decide)
    (by intro x xs hx; rw [List.cons.injEq] at hx; rw [← hx.1];
        exact digit_not_ws y1 h1)
  simp only [List.singleton_append] at t1 t3
  unfold matchTail
  simp only [t1.1, t1.2, t2.1, t2.2, t3.1, t3.2]
  simp [h1, h2, h3, h4]

/-- `matchAt` succeeds at a 1- or 2-digit day followed by the space,
alpha-run, space, four-digit pattern. -/
lemma matchAt_full (d m : List Char) (y1 y2 y3 y4 : Char) (suf : List Char)
    (hdl : d.length = 1 ∨ d.length = 2) (hdd : ∀ c ∈ d, c.isDigit = true)
    (hm0 : m ≠ []) (hma : ∀ c ∈ m, c.isAlpha = true)
    (h1 : y1.isDigit = true) (h2 : y2.isDigit = true)
    (h3 : y3.isDigit = true) (h4 : y4.isDigit = true) :
    matchAt (d ++ ' ' :: (m ++ ' ' :: (y1 :: y2 :: y3 :: y4 :: suf))) =
      some (d, m, [y1, y2, y3, y4]) := by
  rcases d with _ | ⟨d1, _ | ⟨d2, dtail⟩⟩
  · simp at hdl
  · have hd1 : d1.isDigit = true := hdd d1 (by simp)
    have htail := matchTail_full [d1] m y1 y2 y3 y4 suf hm0 hma h1 h2 h3 h4
    have hsp : (' ' : Char).isDigit = false := by decide
    simp only [List.cons_append, List.nil_append]
    simp [matchAt, hd1, hsp, htail]
  · have hdtail : dtail = [] := by
      rcases hdl with h | h
      · simp only [List.length_cons] at h
        omega
      · simp only [List.length_cons] at h
        exact List.length_eq_zero.mp (by omega)
    subst hdtail
    have hd1 : d1.isDigit = true := hdd d1 (by simp)
    have hd2 : d2.isDigit = true := hdd d2 (by simp)
    have htail := matchTail_full [d1, d2] m y1 y2 y3 y4 suf hm0 hma h1 h2 h3 h4
    simp only [List.cons_append, List.nil_append]
    simp [matchAt, hd1, hd2, htail]

/-- C5. The date normalizer maps any input whose normalized text is an
arbitrary digit-free prefix, a 1- or 2-digit day, a recognized month name
(case-insensitive) and a 4-digit year — whatever follows — to the
zero-padded ISO string, and concretely maps "Rabu, 1 Oktober 2025" to
"2025-10-01"; an unrecognized month name yields `none` rather than an
error. -/
theorem C5_to_iso_normalization :
    (∀ (s : String) (pre d m : List Char) (y1 y2 y3 y4 : Char) (suf : List Char) (mm : Nat),
      normSpaceL s.data = pre ++ (d ++ ' ' :: (m ++ ' ' :: (y1 :: y2 :: y3 :: y4 :: suf))) →
      (∀ c ∈ pre, c.isDigit = false) →
      (d.length = 1 ∨ d.length = 2) →
      (∀ c ∈ d, c.isDigit = true) →
      m ≠ [] →
      (∀ c ∈ m, c.isAlpha = true) →
      y1.isDigit = true → y2.isDigit = true → y3.isDigit = true → y4.isDigit = true →
      monthsLookup (String.mk (m.map Char.toLower)) = some mm →
      to_iso_from_tanggal_id s =
        some (String.mk [y1, y2, y3, y4] ++ "-" ++ pad2 mm ++ "-" ++ pad2 (digitsToNat d)))
    ∧ to_iso_from_tanggal_id "Rabu, 1 Oktober 2025" = some "2025-10-01"
    ∧ to_iso_from_tanggal_id "Rabu, 1 Octobre 2025" = none := by
  refine ⟨?_, by decide, by decide⟩
  intro s pre d m y1 y2 y3 y4 suf mm hnorm hpre hdl hdd hm0 hma h1 h2 h3 h4 hmm
  have hs : ¬ (s = "") := by
    intro h0
    subst h0
    have hmem : ' ' ∈ (pre ++ (d ++ ' ' :: (m ++ ' ' :: (y1 :: y2 :: y3 :: y4 :: suf)))) := by
      simp
    rw [← hnorm] at hmem
    rw [show normSpaceL (String.data "") = [] from rfl] at hmem
    simp at hmem
  unfold to_iso_from_tanggal_id
  rw [if_neg hs, hnorm, searchFrom_append_nodigit pre _ hpre]
  obtain ⟨d1, dt, rfl⟩ : ∃ d1 dt, d = d1 :: dt := by
    cases d with
    | nil => simp at hdl
    | cons a b => exact ⟨a, b, rfl⟩
  have hmA := matchAt_full (d1 :: dt) m y1 y2 y3 y4 suf hdl hdd hm0 hma h1 h2 h3 h4
  simp only [List.cons_append] at hmA ⊢
  simp only [searchFrom, hmA, hmm]

/-- Witness for C5 at a concrete input with a two-digit zero-padded day. -/
theorem C5_to_iso_normalization_witness :
    to_iso_from_tanggal_id "Kamis, 05 Mei 2025" = some "2025-05-05" := by
  have h := C5_to_iso_normalization.1 "Kamis, 05 Mei 2025"
    (String.data "Kamis, ") [ '0', '5' ] (String.data "Mei") '2' '0' '2' '5' [] 5
    (by decide) (by decide) (by decide) (by decide) (by decide) (by decide)
    (by decide) (by decide) (by decide) (by decide) (by decide)
  exact h.trans (by decide)

/-- C6. A record with `tanggalISO = "2025-10-18"` is matched by the day
integer 18, by the ISO string, and by the localized string
"18 Oktober 2025". -/
theorem C6_match_consistency : ∀ r : KapasitasRow, r.tanggalISO = some "2025-10-18" →
    _match_target r (Target.int 18) = true ∧
    _match_target r (Target.str "2025-10-18") = true ∧
    _match_target r (Target.str "18 Oktober 2025") = true := by
  intro r h
  refine ⟨?_, ?_, ?_⟩
  · simp only [_match_target, h]
    decide
  · show (r.tanggalISO == some "2025-10-18") = true
    rw [h]
    decide
  · show (r.tanggalISO == some "2025-10-18") = true
    rw [h]
    decide

/-- Witness for C6 at a concrete record. -/
theorem C6_match_consistency_witness :
    scnTersediaRec.tanggalISO = some "2025-10-18" ∧
      _match_target scnTersediaRec (Target.int 18) = true ∧
      _match_target scnTersediaRec (Target.str "2025-10-18") = true ∧
      _match_target scnTersediaRec (Target.str "18 Oktober 2025") = true := by
  have h := C6_match_consistency scnTersediaRec (by decide)
  exact ⟨by decide, h.1, h.2.1, h.2.2⟩

/-- C7 counterexample: in the bounded loop `wait_until_tanggal_ada` a
cycle failure is followed by a sleep of exactly the base interval (here
20s), not the claimed `base + min(60, 2^error_count)` (22s for the first
failure); the bounded loops keep no error counter at all. -/
theorem C7_backoff_counterexample :
    wait_until_tanggal_ada_step 20 CycleResult.exc = BoundedStep.again 20 ∧
      (20 : Nat) ≠ 20 + min 60 (2 ^ 1) :=
  ⟨rfl, by decide⟩

/-- C7 amended. In the indefinite loop of `get_kapasitas_by_date`, a cycle
failure does not terminate the loop, increments the consecutive-error
counter, sleeps `interval + min(60, 2^err_count)` seconds and rebuilds
the transport once the streak reaches 3; any successful cycle resets the
counter to zero. The bounded loops `wait_until_tanggal_ada` and
`wait_until_tanggal_tersedia` also survive cycle failures, but they sleep
exactly the base interval, keep no error counter and never rebuild. -/
theorem C7_backoff_amended :
    (∀ (i : Nat) (swa : Bool) (st : LoopState),
      get_kapasitas_by_date_step i swa st CycleResult.exc =
        StepResult.next
          ⟨st.err_count + 1, st.requests_made,
            st.session_gen + (if 3 ≤ st.err_count + 1 then 1 else 0)⟩
          (i + min 60 (2 ^ (st.err_count + 1))))
    ∧ (∀ (i : Nat) (swa : Bool) (st : LoopState) (res : Option KapasitasRow),
        (stateOfStep (get_kapasitas_by_date_step i swa st (CycleResult.ok res))).err_count = 0)
    ∧ (∀ i : Nat, wait_until_tanggal_ada_step i CycleResult.exc = BoundedStep.again i)
    ∧ (∀ i : Nat, wait_until_tanggal_tersedia_step i CycleResult.exc = BoundedStep.again i) := by
  refine ⟨?_, ?_, fun i => rfl, fun i => rfl⟩
  · intro i swa st
    by_cases h3 : 3 ≤ st.err_count + 1
    · simp [get_kapasitas_by_date_step, h3]
    · simp [get_kapasitas_by_date_step, h3]
  · intro i swa st res
    cases res with
    | none => rfl
    | some r =>
      by_cases hb : (swa && r.available) = true
      · simp [get_kapasitas_by_date_step, hb, stateOfStep]
      · simp [get_kapasitas_by_date_step, hb, stateOfStep]

/-- C8. In the indefinite loop, a successful cycle increments the request
counter and rebuilds the transport exactly when the new counter is a
(positive) multiple of 100; concretely, 99 clean cycles rebuild nothing,
the 100th triggers exactly one rebuild, and cycle 101 still runs on that
rebuilt (generation 1) transport. -/
theorem C8_session_refresh :
    (∀ (i : Nat) (swa : Bool) (st : LoopState) (res : Option KapasitasRow),
      stateOfStep (get_kapasitas_by_date_step i swa st (CycleResult.ok res)) =
        ⟨0, st.requests_made + 1,
          st.session_gen + (if (st.requests_made + 1) % 100 = 0 then 1 else 0)⟩)
    ∧ (get_kapasitas_by_date_run 20 false ⟨0, 0, 0⟩
        (List.replicate 99 (CycleResult.ok none))).1 = ⟨0, 99, 0⟩
    ∧ (get_kapasitas_by_date_run 20 false ⟨0, 0, 0⟩
        (List.replicate 100 (CycleResult.ok none))).1 = ⟨0, 100, 1⟩
    ∧ (get_kapasitas_by_date_run 20 false ⟨0, 0, 0⟩
        (List.replicate 101 (CycleResult.ok none))).1 = ⟨0, 101, 1⟩ := by
  refine ⟨?_, by decide, by decide, by decide⟩
  intro i swa st res
  have hgen : (st.session_gen + if (st.requests_made + 1) % 100 = 0 then 1 else 0) =
      (if (st.requests_made + 1) % 100 == 0 then st.session_gen + 1 else st.session_gen) := by
    by_cases h : (st.requests_made + 1) % 100 = 0 <;> simp [h]
  cases res with
  | none => simp [get_kapasitas_by_date_step, stateOfStep, hgen]
  | some r =>
    by_cases hb : (swa && r.available) = true
    · simp [get_kapasitas_by_date_step, stateOfStep, hb, hgen]
    · simp [get_kapasitas_by_date_step, stateOfStep, hb, hgen]

/-- C9. When the target is a bare all-digit day and no year-month is
supplied, the entry point raises `SystemExit` (exit status 1, hence
non-zero) before building a session or issuing any request. -/
theorem C9_config_error : ∀ s : String, pyIsDigit s = true →
    mainDecision none s = MainOutcome.configError ∧
    exitStatus (mainDecision none s) = some 1 ∧
    performsNetwork (mainDecision none s) = false := by
  intro s h
  have e : mainDecision none s = MainOutcome.configError := by
    simp [mainDecision, normalizeTargetArg, h, _derive_year_month_from_target]
  refine ⟨e, ?_, ?_⟩ <;> rw [e] <;> rfl

/-- Witness for C9 at the concrete bare day "18". -/
theorem C9_config_error_witness :
    pyIsDigit "18" = true ∧ mainDecision none "18" = MainOutcome.configError :=
  ⟨by decide, (C9_config_error "18" (by decide)).1⟩

/-- C10. A string target that strips to the empty string matches every
record (the case-insensitive substring fallback with an empty needle
always succeeds), so a check with such a target selects the first parsed
record whenever there is one. -/
theorem C10_empty_target_matches : ∀ s : String, pyStrip s = "" →
    (∀ r : KapasitasRow, _match_target r (Target.str s) = true) ∧
    (∀ rows : List KapasitasRow, findTarget rows (Target.str s) = rows.head?) := by
  intro s hs
  have hm : ∀ r : KapasitasRow, _match_target r (Target.str s) = true := by
    intro r
    have e : _match_target r (Target.str s) =
        containsL (pyLower "").data (pyLower r.tanggalText).data := by
      simp only [_match_target, hs]
      rfl
    rw [e, show (pyLower "").data = ([] : List Char) from rfl]
    exact containsL_nil _
  refine ⟨hm, ?_⟩
  intro rows
  cases rows with
  | nil => rfl
  | cons a l => simp [findTarget, List.find?, hm a]

/-- Witness for C10 at a whitespace-only target. -/
theorem C10_empty_target_matches_witness :
    pyStrip "  " = "" ∧
      _match_target scnPenuhRec (Target.str "  ") = true ∧
      findTarget [scnPenuhRec, scnTersediaRec] (Target.str "  ") = some scnPenuhRec := by
  have h := C10_empty_target_matches "  " (by decide)
  exact ⟨by decide, h.1 scnPenuhRec, (h.2 [scnPenuhRec, scnTersediaRec]).trans (by decide)⟩
